import Mathlib

/-!
Verification development for the binja-blocks structure-recovery engine
(src/blocks.py and src/shinobi.py).

The Python source is shallowly embedded: machine integers become Nat,
struct builders become lists of named, typed members, Binary Ninja memory
reads become explicit parameters, and fallible code (Python exceptions:
AssertionError, AttributeError, UnboundLocalError, RuntimeError,
NotImplementedError) returns Except String values whose error strings name
the Python exception that would be raised.  Host-registry side effects
(define_type, variable renaming, comments) are reflected in returned
values where a claim depends on them and omitted otherwise.
-/

namespace Blocks

/-! ## Flag constants (blocks.py lines 135-154) -/

def BLOCK_HAS_EXTENDED_LAYOUT : Nat := 0x80000000
def BLOCK_HAS_SIGNATURE : Nat := 0x40000000
def BLOCK_IS_GLOBAL : Nat := 0x10000000
def BLOCK_HAS_COPY_DISPOSE : Nat := 0x02000000

def BLOCK_BYREF_HAS_COPY_DISPOSE : Nat := 0x02000000
def BLOCK_BYREF_LAYOUT_MASK : Nat := 0x70000000
def BLOCK_BYREF_LAYOUT_EXTENDED : Nat := 0x10000000
def BLOCK_BYREF_LAYOUT_NON_OBJECT : Nat := 0x20000000
def BLOCK_BYREF_LAYOUT_STRONG : Nat := 0x30000000
def BLOCK_BYREF_LAYOUT_WEAK : Nat := 0x40000000
def BLOCK_BYREF_LAYOUT_UNRETAINED : Nat := 0x50000000

def BLOCK_LAYOUT_ESCAPE : Nat := 0x0
def BLOCK_LAYOUT_NON_OBJECT_BYTES : Nat := 0x1
def BLOCK_LAYOUT_NON_OBJECT_WORDS : Nat := 0x2
def BLOCK_LAYOUT_STRONG : Nat := 0x3
def BLOCK_LAYOUT_BYREF : Nat := 0x4
def BLOCK_LAYOUT_WEAK : Nat := 0x5
def BLOCK_LAYOUT_UNRETAINED : Nat := 0x6

/-! ## Structure members

A Binary Ninja StructureBuilder is embedded as a list of named, typed
members.  The struct types used by blocks.py for appended fields, with
their widths on the two supported 64-bit architectures. -/

inductive FieldType
  | tClass        -- Class (pointer), 8 bytes
  | tVolatileU32  -- volatile uint32_t, 4 bytes
  | tU32          -- uint32_t, 4 bytes
  | tVolatileI32  -- volatile int32_t, 4 bytes
  | tInvokeFn     -- BlockInvokeFunction, 8 bytes
  | tDescPtr      -- struct Block_descriptor_1 *, 8 bytes
  | tId           -- ObjC id (pointer), 8 bytes
  | tU8Array (n : Nat)  -- uint8_t [n], n bytes
  | tU64          -- uint64_t, 8 bytes
  | tVoidPtr      -- void *, 8 bytes
  | tKeepFn       -- BlockByrefKeepFunction, 8 bytes
  | tDestroyFn    -- BlockByrefDestroyFunction, 8 bytes
  | tU8ConstPtr   -- uint8_t const *, 8 bytes
deriving DecidableEq

def FieldType.size : FieldType → Nat
  | .tClass => 8
  | .tVolatileU32 => 4
  | .tU32 => 4
  | .tVolatileI32 => 4
  | .tInvokeFn => 8
  | .tDescPtr => 8
  | .tId => 8
  | .tU8Array n => n
  | .tU64 => 8
  | .tVoidPtr => 8
  | .tKeepFn => 8
  | .tDestroyFn => 8
  | .tU8ConstPtr => 8

structure Member where
  name : String
  ty : FieldType
deriving DecidableEq

/-- Width of a packed structure: the sum of its member sizes. -/
def structWidth : List Member → Nat
  | [] => 0
  | m :: rest => m.ty.size + structWidth rest

/-- Python format string f-expression n:x, lowercase hex with no prefix. -/
def hexStr (n : Nat) : String := String.mk (Nat.toDigits 16 n)

/-- struct.append(type, f-string base + width in hex), as used for layout
slots whose names embed the current struct width. -/
def appendMember (s : List Member) (ty : FieldType) (base : String) : List Member :=
  s ++ [⟨base ++ hexStr (structWidth s), ty⟩]

/-- A Python loop appending n ObjC id pointers with a given name base
(blocks.py lines 223-224, 229-230, 246-248, 254-259). -/
def appendPtrs : Nat → String → List Member → List Member
  | 0, _, s => s
  | n + 1, base, s => appendPtrs n base (appendMember s .tId base)

/-- The byref-pointer append loop, which also records the member index of
every appended byref pointer when byref_indexes is not None
(blocks.py lines 225-228, 249-253). -/
def appendByrefPtrs : Nat → List Member → Option (List Nat) → List Member × Option (List Nat)
  | 0, s, bi => (s, bi)
  | n + 1, s, bi =>
      appendByrefPtrs n (appendMember s .tId "byref_ptr_") (bi.map (fun l => l ++ [s.length]))

/-- The non-object-words append loop (blocks.py lines 244-245). -/
def appendWords : Nat → List Member → List Member
  | 0, s => s
  | n + 1, s => appendWords n (appendMember s .tU64 "non_object_")

/-! ## Layout bytecode interpreter (blocks.py lines 232-264)

The BinaryReader is embedded by the list of bytes readable starting at the
layout address; reading past the end of that list is the read failure that
would surface as a Python TypeError on the None returned by read8.
off is the reader offset (br.offset), initially the layout address. -/

structure LayoutResult where
  struct : List Member
  byref_indexes : Option (List Nat)
  layout_end : Option Nat
  warnings : List String
deriving DecidableEq

def runBytecode : Nat → List Nat → List Member → Option (List Nat) → List String →
    Except String (List Member × Option (List Nat) × Nat × List String)
  | _, [], _, _, _ => .error "TypeError: read8 past end of memory returned None"
  | off, b :: rest, struct, byref_indexes, warnings =>
    let op := b % 256
    let opcode := op / 16
    let oparg := op % 16
    if opcode = BLOCK_LAYOUT_ESCAPE then
      .ok (struct, byref_indexes, off + 1, warnings)
    else if opcode = BLOCK_LAYOUT_NON_OBJECT_BYTES then
      runBytecode (off + 1) rest (appendMember struct (.tU8Array oparg) "non_object_") byref_indexes warnings
    else if opcode = BLOCK_LAYOUT_NON_OBJECT_WORDS then
      runBytecode (off + 1) rest (appendWords oparg struct) byref_indexes warnings
    else if opcode = BLOCK_LAYOUT_STRONG then
      runBytecode (off + 1) rest (appendPtrs oparg "strong_ptr_" struct) byref_indexes warnings
    else if opcode = BLOCK_LAYOUT_BYREF then
      let r := appendByrefPtrs oparg struct byref_indexes
      runBytecode (off + 1) rest r.1 r.2 warnings
    else if opcode = BLOCK_LAYOUT_WEAK then
      runBytecode (off + 1) rest (appendPtrs oparg "weak_ptr_" struct) byref_indexes warnings
    else if opcode = BLOCK_LAYOUT_UNRETAINED then
      runBytecode (off + 1) rest (appendPtrs oparg "unretained_ptr_" struct) byref_indexes warnings
    else
      .ok (struct, byref_indexes, off + 1, warnings ++ ["Warning: Unknown extended layout op"])

/-- append_layout_fields (blocks.py lines 205-264).  layoutBytes is the
byte run readable at address layout (used only in the bytecode branch);
has_layout_end_obj records whether a layout_end_obj was passed. -/
def append_layout_fields (layout : Nat) (block_has_extended_layout : Bool)
    (layoutBytes : List Nat) (struct : List Member) (byref_indexes : Option (List Nat))
    (has_layout_end_obj : Bool) : Except String LayoutResult :=
  if layout = 0 then
    .ok ⟨struct, byref_indexes, none, []⟩
  else if !block_has_extended_layout then
    .ok ⟨struct, byref_indexes, none, []⟩
  else if layout < 0x1000 then
    let n_strong_ptrs := (layout >>> 8) &&& 0xf
    let n_byref_ptrs := (layout >>> 4) &&& 0xf
    let n_weak_ptrs := layout &&& 0xf
    let s1 := appendPtrs n_strong_ptrs "strong_ptr_" struct
    let r2 := appendByrefPtrs n_byref_ptrs s1 byref_indexes
    let s3 := appendPtrs n_weak_ptrs "weak_ptr_" r2.1
    .ok ⟨s3, r2.2, none, []⟩
  else
    match runBytecode layout layoutBytes struct byref_indexes [] with
    | .error e => .error e
    | .ok (s, bi, endOff, ws) =>
        .ok ⟨s, bi, if has_layout_end_obj then some endOff else none, ws⟩

instance exceptDecEq {ε α : Type} [DecidableEq ε] [DecidableEq α] :
    DecidableEq (Except ε α)
  | .error x, .error y =>
    if h : x = y then .isTrue (by rw [h]) else .isFalse (fun he => h (Except.error.inj he))
  | .error _, .ok _ => .isFalse (fun he => Except.noConfusion he)
  | .ok _, .error _ => .isFalse (fun he => Except.noConfusion he)
  | .ok x, .ok y =>
    if h : x = y then .isTrue (by rw [h]) else .isFalse (fun he => h (Except.ok.inj he))

example : hexStr 255 = "ff" := by decide
example : hexStr 0 = "0" := by decide

/-! ## Raw memory reads

Memory is embedded as a total byte function (little-endian multi-byte
reads), covering the mapped regions the claims exercise. -/

def readLE (mem : Nat → Nat) : Nat → Nat → Nat
  | _, 0 => 0
  | a, k + 1 => mem a % 256 + 256 * readLE mem (a + 1) k

def read64 (mem : Nat → Nat) (a : Nat) : Nat := readLE mem a 8

def read32 (mem : Nat → Nat) (a : Nat) : Nat := readLE mem a 4

/-! ## BlockLiteral (blocks.py lines 267-358) -/

structure BlockLiteral where
  is_stack_block : Bool
  address : Nat
  isa : Nat
  flags : Nat
  reserved : Option Nat   -- from_stack binds reserved to None on a non-constant source
  invoke : Nat
  descriptor : Nat
deriving DecidableEq

/-- BlockLiteral.__init__ (blocks.py lines 337-358): the assertion chain
on invoke, descriptor and the IS_GLOBAL flag bit. -/
def blockLiteralInit (is_stack_block : Bool) (address isa flags : Nat)
    (reserved : Option Nat) (invoke descriptor : Nat) : Except String BlockLiteral :=
  if invoke = 0 then
    .error "AssertionError: self.invoke != 0"
  else if descriptor = 0 then
    .error "AssertionError: self.descriptor != 0"
  else if is_stack_block then
    if flags &&& BLOCK_IS_GLOBAL = 0 then
      .ok ⟨true, address, isa, flags, reserved, invoke, descriptor⟩
    else
      .error "AssertionError: stack block has BLOCK_IS_GLOBAL set"
  else
    if flags &&& BLOCK_IS_GLOBAL = 0 then
      .error "AssertionError: global block lacks BLOCK_IS_GLOBAL"
    else
      .ok ⟨false, address, isa, flags, reserved, invoke, descriptor⟩

/-- BlockLiteral.from_data (blocks.py lines 268-281): fixed 32-byte read
of the literal header from memory. -/
def from_data (mem : Nat → Nat) (address : Nat) : Except String BlockLiteral :=
  let isa := read64 mem address
  let flags := read32 mem (address + 8)
  let reserved := read32 mem (address + 12)
  let invoke := read64 mem (address + 16)
  let descriptor := read64 mem (address + 24)
  blockLiteralInit false address isa flags (some reserved) invoke descriptor

/-! ## HLIL instruction model (shinobi.py, blocks.py pattern matching)

The small closed set of instruction and expression shapes the pattern
matcher distinguishes.  Variables are represented by their identifier. -/

inductive HSrc
  | imp (name : String) (address : Nat)  -- HighLevelILImport
  | const (value : Nat)                  -- HighLevelILConst
  | constPtr (value : Nat)               -- HighLevelILConstPtr
  | structField                          -- HighLevelILStructField as a source
  | addressOfVar (var_id : Nat)          -- HighLevelILAddressOf of a HighLevelILVar
  | addressOfOther                       -- HighLevelILAddressOf of something else
  | derefField                           -- HighLevelILDerefField
  | deref                                -- HighLevelILDeref
  | call                                 -- HighLevelILCall
  | varRef (var_id : Nat)                -- HighLevelILVar
  | otherSrc
deriving DecidableEq

/-- The shape of insn.dest.src for an assignment whose destination is a
HighLevelILStructField (shinobi.py lines 162-175). -/
inductive HRoot
  | hvar (var_id : Nat)            -- HighLevelILVar
  | arrayIndexVar (var_id : Nat)   -- HighLevelILArrayIndex whose src is a var
  | arrayIndexOther                -- HighLevelILArrayIndex, src not a var
  | fieldVar (var_id : Nat)        -- HighLevelILStructField whose src is a var
  | fieldOther                     -- HighLevelILStructField, src not a var
  | derefFieldRoot                 -- HighLevelILDerefField
  | otherRoot (desc : String)      -- any other shape
deriving DecidableEq

inductive HInsn
  | assignField (root : HRoot) (member_index : Nat) (src : HSrc)
      -- HighLevelILAssign whose dest is a HighLevelILStructField
  | assignOther                       -- HighLevelILAssign, dest not a struct field
  | varDeclare (var_id : Nat)         -- HighLevelILVarDeclare
  | varInit (var_id : Nat) (src : HSrc)  -- HighLevelILVarInit to a plain var
  | otherInsn
deriving DecidableEq

/-- One step of yield_struct_field_assign_hlil_instructions_for_var_id
(shinobi.py lines 148-180): .ok none means the instruction is skipped and
the scan continues, .ok (some (mi, src)) means the instruction is yielded,
.error is the NotImplementedError raised on an unhandled destination
source shape (which aborts the whole generator). -/
def scanStep (i : HInsn) (var_id : Nat) : Except String (Option (Nat × HSrc)) :=
  match i with
  | .assignField root mi src =>
    match root with
    | .hvar v => if v = var_id then .ok (some (mi, src)) else .ok none
    | .arrayIndexVar v => if v = var_id then .ok (some (mi, src)) else .ok none
    | .arrayIndexOther => .ok none
    | .fieldVar v => if v = var_id then .ok (some (mi, src)) else .ok none
    | .fieldOther => .ok none
    | .derefFieldRoot => .ok none
    | .otherRoot _ =>
        .error "NotImplementedError: Unhandled destination source type in assign insn, fix plugin"
  | _ => .ok none

/-! ## BlockLiteral.from_stack (blocks.py lines 283-335) -/

/-- The five header locals of from_stack.  A missing Option means the
Python local was never bound; reserved is doubly optional because the
member-2 case binds it to None on a non-constant source. -/
structure FSState where
  isa : Option Nat
  flags : Option Nat
  reserved : Option (Option Nat)
  invoke : Option Nat
  descriptor : Option Nat
deriving DecidableEq

def fsAllBound (st : FSState) : Bool :=
  st.isa.isSome && st.flags.isSome && st.reserved.isSome && st.invoke.isSome && st.descriptor.isSome

/-- The member_index dispatch in from_stack (blocks.py lines 302-331). -/
def fsUpdate (st : FSState) (mi : Nat) (src : HSrc) : Except String FSState :=
  if mi = 0 then
    match src with
    | .imp name address =>
        if name = "__NSConcreteStackBlock" then .ok { st with isa := some address } else .ok st
    | _ => .ok st
  else if mi = 1 then
    match src with
    | .structField =>
        .error "RuntimeError: RHS of flags is struct field instead of constant."
    | .const c => .ok { st with flags := some c }
    | .constPtr c => .ok { st with flags := some c }
    | _ => .ok st
  else if mi = 2 then
    match src with
    | .const c => .ok { st with reserved := some (some c) }
    | .constPtr c => .ok { st with reserved := some (some c) }
    | _ => .ok { st with reserved := some none }
  else if mi = 3 then
    match src with
    | .const c => .ok { st with invoke := some c }
    | .constPtr c => .ok { st with invoke := some c }
    | _ => .ok st
  else if mi = 4 then
    match src with
    | .const c => .ok { st with descriptor := some c }
    | .constPtr c => .ok { st with descriptor := some c }
    | _ => .ok st
  else
    .ok st

/-- The scanning loop of from_stack: lazily consumes the generator, breaks
early once all five header locals are bound. -/
def fromStackLoop : List HInsn → Nat → FSState → Except String FSState
  | [], _, st => .ok st
  | i :: rest, vid, st =>
    match scanStep i vid with
    | .error e => .error e
    | .ok none => fromStackLoop rest vid st
    | .ok (some (mi, src)) =>
      match fsUpdate st mi src with
      | .error e => .error e
      | .ok st' => if fsAllBound st' then .ok st' else fromStackLoop rest vid st'

/-- BlockLiteral.from_stack: run the scan, then construct the literal; any
header local left unbound is the UnboundLocalError raised at the
constructor call on line 335. -/
def from_stack (insns : List HInsn) (stack_var_id : Nat) (address : Nat) :
    Except String BlockLiteral :=
  match fromStackLoop insns stack_var_id ⟨none, none, none, none, none⟩ with
  | .error e => .error e
  | .ok st =>
    match st.isa, st.flags, st.reserved, st.invoke, st.descriptor with
    | some isa, some flags, some reserved, some invoke, some descriptor =>
        blockLiteralInit true address isa flags reserved invoke descriptor
    | _, _, _, _, _ => .error "UnboundLocalError: header field never assigned"

/-! ## BlockDescriptor (blocks.py lines 549-596) -/

/-- The descriptor record.  copy and dispose are Options because the
constructor explicitly sets them to None when HAS_COPY_DISPOSE is clear;
signature, signature_raw and layout are Options because the constructor
leaves those attributes entirely unset when HAS_SIGNATURE is clear, and a
later attribute access on none is an AttributeError. -/
structure BDRec where
  address : Nat
  block_flags : Nat
  reserved : Nat
  size : Nat
  copy : Option Nat
  dispose : Option Nat
  signature : Option Nat
  signature_raw : Option String
  layout : Option Nat
  layout_end : Option Nat
deriving DecidableEq

def BDRec.imported_variables_size (d : BDRec) : Nat := d.size - 0x20

def BDRec.block_has_copy_dispose (d : BDRec) : Bool :=
  d.block_flags &&& BLOCK_HAS_COPY_DISPOSE != 0

def BDRec.block_has_signature (d : BDRec) : Bool :=
  d.block_flags &&& BLOCK_HAS_SIGNATURE != 0

def BDRec.block_has_extended_layout (d : BDRec) : Bool :=
  d.block_flags &&& BLOCK_HAS_EXTENDED_LAYOUT != 0

/-- BlockDescriptor.__init__ (blocks.py lines 550-575), instrumented with
a log of the (address, byte-count) reads the BinaryReader performs.
strAt is bv.get_ascii_string_at: none models the None return whose .raw
access raises AttributeError. -/
def decodeDescriptor (mem : Nat → Nat) (strAt : Nat → Option String)
    (addr block_flags : Nat) : Except String BDRec × List (Nat × Nat) :=
  let reserved := read64 mem addr
  let size := read64 mem (addr + 8)
  let log0 : List (Nat × Nat) := [(addr, 8), (addr + 8, 8)]
  if size < 0x20 then
    (.error "AssertionError: self.size >= 0x20", log0)
  else
    let copy : Option Nat :=
      if block_flags &&& BLOCK_HAS_COPY_DISPOSE ≠ 0 then some (read64 mem (addr + 16)) else none
    let dispose : Option Nat :=
      if block_flags &&& BLOCK_HAS_COPY_DISPOSE ≠ 0 then some (read64 mem (addr + 24)) else none
    let off2 :=
      if block_flags &&& BLOCK_HAS_COPY_DISPOSE ≠ 0 then addr + 32 else addr + 16
    let log2 :=
      if block_flags &&& BLOCK_HAS_COPY_DISPOSE ≠ 0 then
        log0 ++ [(addr + 16, 8), (addr + 24, 8)]
      else log0
    if block_flags &&& BLOCK_HAS_SIGNATURE ≠ 0 then
      let signature := read64 mem off2
      let log3 := log2 ++ [(off2, 8)]
      if signature ≠ 0 then
        match strAt signature with
        | none =>
            (.error "AttributeError: NoneType object has no attribute raw", log3)
        | some s =>
            let layout := read64 mem (off2 + 8)
            (.ok ⟨addr, block_flags, reserved, size, copy, dispose,
                  some signature, some s, some layout, none⟩,
             log3 ++ [(off2 + 8, 8)])
      else
        let layout := read64 mem (off2 + 8)
        (.ok ⟨addr, block_flags, reserved, size, copy, dispose,
              some signature, none, some layout, none⟩,
         log3 ++ [(off2 + 8, 8)])
    else
      (.ok ⟨addr, block_flags, reserved, size, copy, dispose, none, none, none, none⟩, log2)

/-! ## BlockLiteral.annotate_literal (blocks.py lines 367-422) -/

def headerMembers : List Member :=
  [⟨"isa", .tClass⟩, ⟨"flags", .tVolatileU32⟩, ⟨"reserved", .tU32⟩,
   ⟨"invoke", .tInvokeFn⟩, ⟨"descriptor", .tDescPtr⟩]

/-- How annotate_literal resolves the stack variable from self.insn
(blocks.py lines 388-397): either the variable with its current type name,
or an unexpected instruction shape (a RuntimeError). -/
inductive StackVarInfo
  | resolvable (type_name : String)
  | unresolvable (desc : String)
deriving DecidableEq

structure ALRes where
  struct : List Member
  byref_indexes : Option (List Nat)
  layout_end : Option Nat
  already : Bool          -- true for the early return at blocks.py line 407
  n_unaccounted : Option Nat  -- the SizeMismatch comment at lines 417-421
deriving DecidableEq

/-- The struct-assembly part of annotate_literal (blocks.py lines 373-381):
header fields, then layout fields when the descriptor declares trailing
bytes.  region maps an address to the byte run readable there. -/
def assembleLiteralStruct (bd : BDRec) (region : Nat → List Nat) :
    Except String (List Member × Option (List Nat) × Option Nat) :=
  if 0 < bd.imported_variables_size then
    match bd.layout with
    | none => .error "AttributeError: BlockDescriptor object has no attribute layout"
    | some l =>
      match append_layout_fields l bd.block_has_extended_layout (region l)
          headerMembers (some []) true with
      | .error e => .error e
      | .ok r => .ok (r.struct, r.byref_indexes, r.layout_end)
  else
    .ok (headerMembers, none, none)

def struct_type_name (address : Nat) : String :=
  "struct Block_literal_" ++ hexStr address

/-- annotate_literal (blocks.py lines 367-422). -/
def annotate_literal (bl : BlockLiteral) (sv : StackVarInfo) (bd : BDRec)
    (region : Nat → List Nat) : Except String ALRes :=
  match assembleLiteralStruct bd region with
  | .error e => .error e
  | .ok (s, bi, le) =>
    if bl.is_stack_block then
      match sv with
      | .unresolvable d => .error ("RuntimeError: unexpected type " ++ d)
      | .resolvable tn =>
        if tn.startsWith "struct Block_literal_" && tn != struct_type_name bl.address then
          .ok ⟨s, bi, le, true, none⟩
        else if structWidth s < bd.size then
          .ok ⟨s, bi, le, false, some (bd.size - structWidth s)⟩
        else
          .ok ⟨s, bi, le, false, none⟩
    else
      if structWidth s < bd.size then
        .ok ⟨s, bi, le, false, some (bd.size - structWidth s)⟩
      else
        .ok ⟨s, bi, le, false, none⟩

/-- The global-block pipeline inside the try block of
annotate_global_block_literal (blocks.py lines 668-676), up to and
including annotate_literal; an error aborts the instance (caught and
logged at the instance boundary, lines 677-679). -/
def annotate_global_pipeline (mem : Nat → Nat) (strAt : Nat → Option String)
    (region : Nat → List Nat) (address : Nat) :
    Except String (BlockLiteral × BDRec × ALRes) :=
  match from_data mem address with
  | .error e => .error e
  | .ok bl =>
    match (decodeDescriptor mem strAt bl.descriptor bl.flags).1 with
    | .error e => .error e
    | .ok bd =>
      match annotate_literal bl (.resolvable "") bd region with
      | .error e => .error e
      | .ok r => .ok (bl, bd, r)

/-! ## Byref cells (blocks.py lines 733-881)

The byref pass of annotate_stack_block_literal.  The Python locals
byref_flags, byref_size and byref_layout are function-scoped and persist
across iterations of the per-byref loop, so they are threaded through the
embedding explicitly as LoopSt. -/

def byrefHeader : List Member :=
  [⟨"isa", .tClass⟩, ⟨"forwarding", .tVoidPtr⟩,
   ⟨"flags", .tVolatileI32⟩, ⟨"size", .tU32⟩]

def byrefKeepDestroy (byref_flags : Nat) : List Member :=
  if byref_flags &&& BLOCK_BYREF_HAS_COPY_DISPOSE != 0 then
    [⟨"byref_keep", .tKeepFn⟩, ⟨"byref_destroy", .tDestroyFn⟩]
  else
    []

/-- The flags/size scan over the byref cell's field assignments
(blocks.py lines 806-816).  No break: every yielded constant assignment to
member 2 or 3 overwrites the local.  acc carries the values the locals
byref_flags and byref_size already hold from earlier loop iterations. -/
def scanByrefFlagsSize : List HInsn → Nat → Option Nat × Option Nat →
    Except String (Option Nat × Option Nat)
  | [], _, acc => .ok acc
  | i :: rest, vid, acc =>
    match scanStep i vid with
    | .error e => .error e
    | .ok none => scanByrefFlagsSize rest vid acc
    | .ok (some (mi, src)) =>
      if mi = 2 then
        match src with
        | .const c => scanByrefFlagsSize rest vid (some c, acc.2)
        | .constPtr c => scanByrefFlagsSize rest vid (some c, acc.2)
        | _ => scanByrefFlagsSize rest vid acc
      else if mi = 3 then
        match src with
        | .const c => scanByrefFlagsSize rest vid (acc.1, some c)
        | .constPtr c => scanByrefFlagsSize rest vid (acc.1, some c)
        | _ => scanByrefFlagsSize rest vid acc
      else
        scanByrefFlagsSize rest vid acc

/-- The layout scan in the extended branch (blocks.py lines 833-838):
first yielded assignment to the layout member, asserted constant, with a
break; .ok none when the loop falls through without a break. -/
def scanByrefLayout : List HInsn → Nat → Nat → Except String (Option Nat)
  | [], _, _ => .ok none
  | i :: rest, vid, li =>
    match scanStep i vid with
    | .error e => .error e
    | .ok none => scanByrefLayout rest vid li
    | .ok (some (mi, src)) =>
      if mi = li then
        match src with
        | .const c => .ok (some c)
        | .constPtr c => .ok (some c)
        | _ => .error "AssertionError: byref layout source is not a constant"
      else
        scanByrefLayout rest vid li

def replaceMember (s : List Member) (i : Nat) (m : Member) : List Member :=
  s.set i m

/-- The byref structure assembly (blocks.py lines 796-852), given the
byref_flags value: fixed header, keep/destroy iff the copy-dispose bit,
then the payload selected by the layout nibble.  prevLayout is the value
the function-scoped local byref_layout holds from earlier iterations (the
extended branch falls back to it when the scan finds no assignment);
returns the members together with the updated byref_layout local. -/
def buildByrefStruct (insns : List HInsn) (vid : Nat) (byref_flags : Nat)
    (prevLayout : Option Nat) (region : Nat → List Nat) :
    Except String (List Member × Option Nat) :=
  let s1 := byrefHeader ++ byrefKeepDestroy byref_flags
  let nib := byref_flags &&& BLOCK_BYREF_LAYOUT_MASK
  if nib = BLOCK_BYREF_LAYOUT_EXTENDED then
    let s2 := s1 ++ [⟨"layout", .tVoidPtr⟩]
    let layout_index := s1.length
    match scanByrefLayout insns vid layout_index with
    | .error e => .error e
    | .ok found =>
      match found.orElse (fun _ => prevLayout) with
      | none => .error "UnboundLocalError: byref_layout never assigned"
      | some L =>
        let s3 :=
          if L ≠ 0 then
            if L < 0x1000 then
              replaceMember s2 layout_index ⟨"layout", .tU64⟩
            else
              replaceMember s2 layout_index ⟨"layout", .tU8ConstPtr⟩
          else
            s2
        match append_layout_fields L true (region L) s3 none false with
        | .error e => .error e
        | .ok r => .ok (r.struct, some L)
  else if nib = BLOCK_BYREF_LAYOUT_NON_OBJECT then
    .ok (s1 ++ [⟨"non_object_0", .tU64⟩], prevLayout)
  else if nib = BLOCK_BYREF_LAYOUT_STRONG then
    .ok (s1 ++ [⟨"strong_ptr_0", .tId⟩], prevLayout)
  else if nib = BLOCK_BYREF_LAYOUT_WEAK then
    .ok (s1 ++ [⟨"weak_ptr_0", .tId⟩], prevLayout)
  else if nib = BLOCK_BYREF_LAYOUT_UNRETAINED then
    .ok (s1 ++ [⟨"unretained_ptr_0", .tId⟩], prevLayout)
  else
    .ok (s1, prevLayout)

/-- The search for the byref variable's declaration or initialization
(blocks.py lines 771-789). -/
def findDecl : List HInsn → Nat → Bool
  | [], _ => false
  | .varDeclare v :: rest, vid => if v = vid then true else findDecl rest vid
  | .varInit v _ :: rest, vid => if v = vid then true else findDecl rest vid
  | _ :: rest, vid => findDecl rest vid

/-- The function-scoped locals of annotate_stack_block_literal reused
across iterations of the per-byref loop. -/
structure LoopSt where
  byref_flags : Option Nat
  byref_size : Option Nat
  byref_layout : Option Nat
deriving DecidableEq

inductive ByrefOutcome
  | skippedNoSrc        -- byref_src is None: silently skipped (line 762)
  | manualAnnotate      -- AddressOf of a non-var: reported, skipped (line 768)
  | declNotFound        -- declaration search failed: reported, skipped (line 788)
  | missingFlagsSize    -- UnboundLocalError on the print: reported, skipped (line 820)
  | annotated (struct : List Member) (flags size : Nat)
deriving DecidableEq

structure ByrefCtx where
  insns : List HInsn
  region : Nat → List Nat

/-- One iteration of the per-byref loop (blocks.py lines 761-872), acting
on one (byref_src, byref_member_index) pair.  Outcomes other than errors
continue the loop; errors abort the whole byref pass (caught at the
instance boundary, lines 879-881). -/
def processByref (ctx : ByrefCtx) (st : LoopSt) (bsrc : Option HSrc × Nat) :
    Except String (ByrefOutcome × LoopSt) :=
  match bsrc.1 with
  | none => .ok (.skippedNoSrc, st)
  | some src =>
    match src with
    | .addressOfVar vid =>
      if findDecl ctx.insns vid then
        match scanByrefFlagsSize ctx.insns vid (st.byref_flags, st.byref_size) with
        | .error e => .error e
        | .ok (fo, so) =>
          match fo, so with
          | some f, some sz =>
            match buildByrefStruct ctx.insns vid f st.byref_layout ctx.region with
            | .error e => .error e
            | .ok (s, pl) => .ok (.annotated s f sz, ⟨some f, some sz, pl⟩)
          | _, _ => .ok (.missingFlagsSize, ⟨fo, so, st.byref_layout⟩)
      else
        .ok (.declNotFound, st)
    | .addressOfOther => .ok (.manualAnnotate, st)
    | _ => .error "AssertionError: byref source is not a HighLevelILAddressOf"

/-- The per-byref loop over byref_srcs. -/
def processByrefPass (ctx : ByrefCtx) (st : LoopSt) :
    List (Option HSrc × Nat) → Except String (List ByrefOutcome)
  | [] => .ok []
  | b :: rest =>
    match processByref ctx st b with
    | .error e => .error e
    | .ok (o, st') =>
      match processByrefPass ctx st' rest with
      | .error e => .error e
      | .ok os => .ok (o :: os)

/-! ## Helper lemmas about the append loops -/

lemma appendPtrs_spec (base : String) :
    ∀ (n : Nat) (s : List Member), ∃ t, appendPtrs n base s = s ++ t ∧ t.length = n ∧
      ∀ m ∈ t, m.ty = FieldType.tId ∧ ∃ r, m.name = base ++ r := by
  intro n
  induction n with
  | zero =>
    intro s
    exact ⟨[], by simp [appendPtrs], rfl, by simp⟩
  | succ k ih =>
    intro s
    obtain ⟨t, ht, hl, hm⟩ := ih (appendMember s .tId base)
    refine ⟨⟨base ++ hexStr (structWidth s), .tId⟩ :: t, ?_, by simp [hl], ?_⟩
    · rw [appendPtrs, ht, appendMember]
      simp
    · intro m hm'
      rcases List.mem_cons.mp hm' with h | h
      · subst h
        exact ⟨rfl, ⟨hexStr (structWidth s), rfl⟩⟩
      · exact hm m h

lemma appendWords_spec :
    ∀ (n : Nat) (s : List Member), ∃ t, appendWords n s = s ++ t ∧ t.length = n ∧
      ∀ m ∈ t, m.ty = FieldType.tU64 ∧ ∃ r, m.name = "non_object_" ++ r := by
  intro n
  induction n with
  | zero =>
    intro s
    exact ⟨[], by simp [appendWords], rfl, by simp⟩
  | succ k ih =>
    intro s
    obtain ⟨t, ht, hl, hm⟩ := ih (appendMember s .tU64 "non_object_")
    refine ⟨⟨"non_object_" ++ hexStr (structWidth s), .tU64⟩ :: t, ?_, by simp [hl], ?_⟩
    · rw [appendWords, ht, appendMember]
      simp
    · intro m hm'
      rcases List.mem_cons.mp hm' with h | h
      · subst h
        exact ⟨rfl, ⟨hexStr (structWidth s), rfl⟩⟩
      · exact hm m h

lemma range_shift_map (a k : Nat) :
    (List.range (k + 1)).map (fun i => a + i) =
      a :: (List.range k).map (fun i => a + 1 + i) := by
  rw [List.range_succ_eq_map]
  simp only [List.map_cons, Nat.add_zero, List.map_map]
  congr 1
  apply List.map_congr_left
  intro i _
  simp only [Function.comp_apply]
  omega

lemma appendByrefPtrs_spec :
    ∀ (n : Nat) (s : List Member) (bi : Option (List Nat)),
      ∃ t, appendByrefPtrs n s bi =
        (s ++ t, bi.map (fun l => l ++ (List.range n).map (fun i => s.length + i))) ∧
      t.length = n ∧ ∀ m ∈ t, m.ty = FieldType.tId ∧ ∃ r, m.name = "byref_ptr_" ++ r := by
  intro n
  induction n with
  | zero =>
    intro s bi
    refine ⟨[], ?_, rfl, by simp⟩
    cases bi <;> simp [appendByrefPtrs]
  | succ k ih =>
    intro s bi
    obtain ⟨t, ht, hl, hm⟩ := ih (appendMember s .tId "byref_ptr_") (bi.map (fun l => l ++ [s.length]))
    refine ⟨⟨"byref_ptr_" ++ hexStr (structWidth s), .tId⟩ :: t, ?_, by simp [hl], ?_⟩
    · rw [appendByrefPtrs, ht]
      have hlen : (appendMember s FieldType.tId "byref_ptr_").length = s.length + 1 := by
        simp [appendMember]
      simp only [Prod.mk.injEq]
      constructor
      · rw [appendMember]
        simp
      · cases bi with
        | none => rfl
        | some l =>
          simp only [Option.map_some', Option.some.injEq, hlen, range_shift_map,
            List.append_assoc, List.singleton_append]
    · intro m hm'
      rcases List.mem_cons.mp hm' with h | h
      · subst h
        exact ⟨rfl, ⟨hexStr (structWidth s), rfl⟩⟩
      · exact hm m h

/-- Claim C4: for every non-zero compact layout value v with the
extended-layout flag set, layout decoding appends exactly
((v>>8)&0xf) + ((v>>4)&0xf) + (v&0xf) slots, in the order strong pointers,
then byref pointers (each byref slot's member index recorded), then weak
pointers, and produces no layout_end for the compact form. -/
theorem c4_compact_layout (layout : Nat) (s : List Member) (bi : List Nat)
    (layoutBytes : List Nat) (hle : Bool)
    (h0 : 0 < layout) (h1 : layout < 0x1000) :
    ∃ strongs byrefs weaks : List Member,
      append_layout_fields layout true layoutBytes s (some bi) hle =
        .ok ⟨s ++ strongs ++ byrefs ++ weaks,
             some (bi ++ (List.range ((layout >>> 4) &&& 0xf)).map
               (fun i => s.length + ((layout >>> 8) &&& 0xf) + i)),
             none, []⟩ ∧
      strongs.length = (layout >>> 8) &&& 0xf ∧
      byrefs.length = (layout >>> 4) &&& 0xf ∧
      weaks.length = layout &&& 0xf ∧
      (∀ m ∈ strongs, m.ty = FieldType.tId ∧ ∃ r, m.name = "strong_ptr_" ++ r) ∧
      (∀ m ∈ byrefs, m.ty = FieldType.tId ∧ ∃ r, m.name = "byref_ptr_" ++ r) ∧
      (∀ m ∈ weaks, m.ty = FieldType.tId ∧ ∃ r, m.name = "weak_ptr_" ++ r) := by
  obtain ⟨ts, hts, hls, hms⟩ :=
    appendPtrs_spec "strong_ptr_" ((layout >>> 8) &&& 0xf) s
  obtain ⟨tb, htb, hlb, hmb⟩ :=
    appendByrefPtrs_spec ((layout >>> 4) &&& 0xf) (s ++ ts) (some bi)
  obtain ⟨tw, htw, hlw, hmw⟩ :=
    appendPtrs_spec "weak_ptr_" (layout &&& 0xf) (s ++ ts ++ tb)
  refine ⟨ts, tb, tw, ?_, hls, hlb, hlw, hms, hmb, hmw⟩
  unfold append_layout_fields
  rw [if_neg (by omega), if_neg (by simp), if_pos h1]
  simp only []
  rw [hts, htb]
  dsimp only
  rw [htw]
  simp only [Option.map_some, List.length_append, hls]
  rfl

/-- Claim C4 witness: the theorem applied at the concrete compact value
0x123 (1 strong, 2 byref, 3 weak) on an empty initial structure. -/
theorem c4_compact_layout_witness :
    (0 : Nat) < 0x123 ∧ (0x123 : Nat) < 0x1000 ∧
    ∃ strongs byrefs weaks : List Member,
      append_layout_fields 0x123 true [] [] (some []) true =
        .ok ⟨[] ++ strongs ++ byrefs ++ weaks,
             some ([] ++ (List.range (((0x123 : Nat) >>> 4) &&& 0xf)).map
               (fun i => List.length ([] : List Member) + (((0x123 : Nat) >>> 8) &&& 0xf) + i)),
             none, []⟩ ∧
      strongs.length = ((0x123 : Nat) >>> 8) &&& 0xf ∧
      byrefs.length = ((0x123 : Nat) >>> 4) &&& 0xf ∧
      weaks.length = (0x123 : Nat) &&& 0xf ∧
      (∀ m ∈ strongs, m.ty = FieldType.tId ∧ ∃ r, m.name = "strong_ptr_" ++ r) ∧
      (∀ m ∈ byrefs, m.ty = FieldType.tId ∧ ∃ r, m.name = "byref_ptr_" ++ r) ∧
      (∀ m ∈ weaks, m.ty = FieldType.tId ∧ ∃ r, m.name = "weak_ptr_" ++ r) :=
  ⟨by decide, by decide, c4_compact_layout 0x123 [] [] [] true (by decide) (by decide)⟩

/-- Claim C5: for every layout bytecode stream, a byte with high nibble 0
(ESCAPE) terminates decoding without emitting a slot with the end offset
just past that byte; opcodes 1-6 with operand n emit one n-byte
NonObjectBytes run, n NonObjectWords, n strong, n byref (each index
recorded), n weak, and n unretained pointer slots respectively; an opcode
7-15 stops immediately with a warning, keeping the partial slot list and
the end offset just past the last consumed byte. -/
theorem c5_bytecode_semantics (off b : Nat) (rest : List Nat) (s : List Member)
    (bi : Option (List Nat)) (w : List String) :
    ((b % 256) / 16 = 0 →
      runBytecode off (b :: rest) s bi w = .ok (s, bi, off + 1, w)) ∧
    ((b % 256) / 16 = 1 →
      runBytecode off (b :: rest) s bi w =
        runBytecode (off + 1) rest
          (s ++ [⟨"non_object_" ++ hexStr (structWidth s), .tU8Array (b % 256 % 16)⟩]) bi w) ∧
    ((b % 256) / 16 = 2 → ∃ t,
      runBytecode off (b :: rest) s bi w = runBytecode (off + 1) rest (s ++ t) bi w ∧
      t.length = b % 256 % 16 ∧
      ∀ m ∈ t, m.ty = FieldType.tU64 ∧ ∃ r, m.name = "non_object_" ++ r) ∧
    ((b % 256) / 16 = 3 → ∃ t,
      runBytecode off (b :: rest) s bi w = runBytecode (off + 1) rest (s ++ t) bi w ∧
      t.length = b % 256 % 16 ∧
      ∀ m ∈ t, m.ty = FieldType.tId ∧ ∃ r, m.name = "strong_ptr_" ++ r) ∧
    ((b % 256) / 16 = 4 → ∃ t,
      runBytecode off (b :: rest) s bi w =
        runBytecode (off + 1) rest (s ++ t)
          (bi.map (fun l => l ++ (List.range (b % 256 % 16)).map (fun i => s.length + i))) w ∧
      t.length = b % 256 % 16 ∧
      ∀ m ∈ t, m.ty = FieldType.tId ∧ ∃ r, m.name = "byref_ptr_" ++ r) ∧
    ((b % 256) / 16 = 5 → ∃ t,
      runBytecode off (b :: rest) s bi w = runBytecode (off + 1) rest (s ++ t) bi w ∧
      t.length = b % 256 % 16 ∧
      ∀ m ∈ t, m.ty = FieldType.tId ∧ ∃ r, m.name = "weak_ptr_" ++ r) ∧
    ((b % 256) / 16 = 6 → ∃ t,
      runBytecode off (b :: rest) s bi w = runBytecode (off + 1) rest (s ++ t) bi w ∧
      t.length = b % 256 % 16 ∧
      ∀ m ∈ t, m.ty = FieldType.tId ∧ ∃ r, m.name = "unretained_ptr_" ++ r) ∧
    (7 ≤ (b % 256) / 16 →
      runBytecode off (b :: rest) s bi w =
        .ok (s, bi, off + 1, w ++ ["Warning: Unknown extended layout op"])) := by
  refine ⟨?_, ?_, ?_, ?_, ?_, ?_, ?_, ?_⟩
  · intro h
    rw [runBytecode]
    dsimp only
    rw [if_pos (by rw [h]; rfl)]
  · intro h
    rw [runBytecode]
    dsimp only
    rw [if_neg (by rw [h]; decide), if_pos (by rw [h]; rfl)]
    rfl
  · intro h
    obtain ⟨t, ht, hl, hm⟩ := appendWords_spec (b % 256 % 16) s
    refine ⟨t, ?_, hl, hm⟩
    rw [runBytecode]
    dsimp only
    rw [if_neg (by rw [h]; decide), if_neg (by rw [h]; decide), if_pos (by rw [h]; rfl), ht]
  · intro h
    obtain ⟨t, ht, hl, hm⟩ := appendPtrs_spec "strong_ptr_" (b % 256 % 16) s
    refine ⟨t, ?_, hl, hm⟩
    rw [runBytecode]
    dsimp only
    rw [if_neg (by rw [h]; decide), if_neg (by rw [h]; decide), if_neg (by rw [h]; decide),
      if_pos (by rw [h]; rfl), ht]
  · intro h
    obtain ⟨t, ht, hl, hm⟩ := appendByrefPtrs_spec (b % 256 % 16) s bi
    refine ⟨t, ?_, hl, hm⟩
    rw [runBytecode]
    dsimp only
    rw [if_neg (by rw [h]; decide), if_neg (by rw [h]; decide), if_neg (by rw [h]; decide),
      if_neg (by rw [h]; decide), if_pos (by rw [h]; rfl), ht]
  · intro h
    obtain ⟨t, ht, hl, hm⟩ := appendPtrs_spec "weak_ptr_" (b % 256 % 16) s
    refine ⟨t, ?_, hl, hm⟩
    rw [runBytecode]
    dsimp only
    rw [if_neg (by rw [h]; decide), if_neg (by rw [h]; decide), if_neg (by rw [h]; decide),
      if_neg (by rw [h]; decide), if_neg (by rw [h]; decide), if_pos (by rw [h]; rfl), ht]
  · intro h
    obtain ⟨t, ht, hl, hm⟩ := appendPtrs_spec "unretained_ptr_" (b % 256 % 16) s
    refine ⟨t, ?_, hl, hm⟩
    rw [runBytecode]
    dsimp only
    rw [if_neg (by rw [h]; decide), if_neg (by rw [h]; decide), if_neg (by rw [h]; decide),
      if_neg (by rw [h]; decide), if_neg (by rw [h]; decide), if_neg (by rw [h]; decide),
      if_pos (by rw [h]; rfl), ht]
  · intro h
    rw [runBytecode]
    dsimp only
    rw [if_neg (by unfold BLOCK_LAYOUT_ESCAPE; omega),
      if_neg (by unfold BLOCK_LAYOUT_NON_OBJECT_BYTES; omega),
      if_neg (by unfold BLOCK_LAYOUT_NON_OBJECT_WORDS; omega),
      if_neg (by unfold BLOCK_LAYOUT_STRONG; omega),
      if_neg (by unfold BLOCK_LAYOUT_BYREF; omega),
      if_neg (by unfold BLOCK_LAYOUT_WEAK; omega),
      if_neg (by unfold BLOCK_LAYOUT_UNRETAINED; omega)]

/-- Claim C5 witness: the theorem applied at concrete inputs: an ESCAPE
byte at offset 7, and an unknown opcode 0x7f at offset 9. -/
theorem c5_bytecode_semantics_witness :
    runBytecode 7 [0] [] (some []) [] = .ok ([], some [], 7 + 1, []) ∧
    runBytecode 9 [0x7f] headerMembers none [] =
      .ok (headerMembers, none, 9 + 1, [] ++ ["Warning: Unknown extended layout op"]) :=
  ⟨(c5_bytecode_semantics 7 0 [] [] (some []) []).1 (by decide),
   (c5_bytecode_semantics 9 0x7f [] headerMembers none []).2.2.2.2.2.2.2 (by decide)⟩

/-- Claim C6: descriptor decoding reads reserved and size unconditionally,
fails before reading any conditional field whenever size < 32, and reads
copy and dispose if and only if HAS_COPY_DISPOSE is set in the owning
literal's flags (they are None otherwise), and signature and layout if and
only if HAS_SIGNATURE is set. -/
theorem c6_descriptor_decode (mem : Nat → Nat) (strAt : Nat → Option String)
    (addr flags : Nat) :
    ((decodeDescriptor mem strAt addr flags).2.take 2 = [(addr, 8), (addr + 8, 8)]) ∧
    (read64 mem (addr + 8) < 0x20 →
      (decodeDescriptor mem strAt addr flags).1 = .error "AssertionError: self.size >= 0x20" ∧
      (decodeDescriptor mem strAt addr flags).2 = [(addr, 8), (addr + 8, 8)]) ∧
    (∀ d, (decodeDescriptor mem strAt addr flags).1 = .ok d →
      d.reserved = read64 mem addr ∧ d.size = read64 mem (addr + 8) ∧ 0x20 ≤ d.size ∧
      (flags &&& BLOCK_HAS_COPY_DISPOSE ≠ 0 →
        d.copy = some (read64 mem (addr + 16)) ∧ d.dispose = some (read64 mem (addr + 24))) ∧
      (flags &&& BLOCK_HAS_COPY_DISPOSE = 0 → d.copy = none ∧ d.dispose = none) ∧
      (flags &&& BLOCK_HAS_SIGNATURE ≠ 0 → d.signature.isSome ∧ d.layout.isSome) ∧
      (flags &&& BLOCK_HAS_SIGNATURE = 0 → d.signature = none ∧ d.layout = none)) := by
  unfold decodeDescriptor
  by_cases hsz : read64 mem (addr + 8) < 0x20
  · rw [if_pos hsz]
    refine ⟨rfl, fun _ => ⟨rfl, rfl⟩, fun d hd => Except.noConfusion hd⟩
  · rw [if_neg hsz]
    by_cases hcd : flags &&& BLOCK_HAS_COPY_DISPOSE ≠ 0
    · rw [if_pos hcd, if_pos hcd, if_pos hcd, if_pos hcd]
      by_cases hsig : flags &&& BLOCK_HAS_SIGNATURE ≠ 0
      · rw [if_pos hsig]
        by_cases hs0 : read64 mem (addr + 32) ≠ 0
        · rw [if_pos hs0]
          cases hstr : strAt (read64 mem (addr + 32)) with
          | none =>
            refine ⟨rfl, fun h => absurd h (by omega), fun d hd => Except.noConfusion hd⟩
          | some str =>
            refine ⟨rfl, fun h => absurd h (by omega), fun d hd => ?_⟩
            cases hd
            exact ⟨rfl, rfl, show 0x20 ≤ read64 mem (addr + 8) by omega, fun _ => ⟨rfl, rfl⟩, fun h => absurd h hcd,
              fun _ => ⟨rfl, rfl⟩, fun h => absurd h hsig⟩
        · rw [if_neg hs0]
          refine ⟨rfl, fun h => absurd h (by omega), fun d hd => ?_⟩
          cases hd
          exact ⟨rfl, rfl, show 0x20 ≤ read64 mem (addr + 8) by omega, fun _ => ⟨rfl, rfl⟩, fun h => absurd h hcd,
            fun _ => ⟨rfl, rfl⟩, fun h => absurd h hsig⟩
      · rw [if_neg hsig]
        refine ⟨rfl, fun h => absurd h (by omega), fun d hd => ?_⟩
        cases hd
        exact ⟨rfl, rfl, show 0x20 ≤ read64 mem (addr + 8) by omega, fun _ => ⟨rfl, rfl⟩, fun h => absurd h hcd,
          fun h => absurd h hsig, fun _ => ⟨rfl, rfl⟩⟩
    · rw [if_neg hcd, if_neg hcd, if_neg hcd, if_neg hcd]
      by_cases hsig : flags &&& BLOCK_HAS_SIGNATURE ≠ 0
      · rw [if_pos hsig]
        by_cases hs0 : read64 mem (addr + 16) ≠ 0
        · rw [if_pos hs0]
          cases hstr : strAt (read64 mem (addr + 16)) with
          | none =>
            refine ⟨rfl, fun h => absurd h (by omega), fun d hd => Except.noConfusion hd⟩
          | some str =>
            refine ⟨rfl, fun h => absurd h (by omega), fun d hd => ?_⟩
            cases hd
            exact ⟨rfl, rfl, show 0x20 ≤ read64 mem (addr + 8) by omega, fun h => absurd h hcd, fun _ => ⟨rfl, rfl⟩,
              fun _ => ⟨rfl, rfl⟩, fun h => absurd h hsig⟩
        · rw [if_neg hs0]
          refine ⟨rfl, fun h => absurd h (by omega), fun d hd => ?_⟩
          cases hd
          exact ⟨rfl, rfl, show 0x20 ≤ read64 mem (addr + 8) by omega, fun h => absurd h hcd, fun _ => ⟨rfl, rfl⟩,
            fun _ => ⟨rfl, rfl⟩, fun h => absurd h hsig⟩
      · rw [if_neg hsig]
        refine ⟨rfl, fun h => absurd h (by omega), fun d hd => ?_⟩
        cases hd
        exact ⟨rfl, rfl, show 0x20 ≤ read64 mem (addr + 8) by omega, fun h => absurd h hcd, fun _ => ⟨rfl, rfl⟩,
          fun h => absurd h hsig, fun _ => ⟨rfl, rfl⟩⟩

/-- Claim C6 witness: the theorem applied to a concrete memory image
whose descriptor at address 0 has size 0x30 and owning flags 0 (neither
optional group present), with the third conjunct discharged at the
concrete decoded record. -/
theorem c6_descriptor_decode_witness :
    (BDRec.mk 0 0 0 0x30 none none none none none none).reserved =
        read64 (fun a => if a = 8 then 0x30 else 0) 0 ∧
    (BDRec.mk 0 0 0 0x30 none none none none none none).size =
        read64 (fun a => if a = 8 then 0x30 else 0) (0 + 8) ∧
    0x20 ≤ (BDRec.mk 0 0 0 0x30 none none none none none none).size ∧
    ((0 : Nat) &&& BLOCK_HAS_COPY_DISPOSE ≠ 0 →
      (BDRec.mk 0 0 0 0x30 none none none none none none).copy =
          some (read64 (fun a => if a = 8 then 0x30 else 0) (0 + 16)) ∧
      (BDRec.mk 0 0 0 0x30 none none none none none none).dispose =
          some (read64 (fun a => if a = 8 then 0x30 else 0) (0 + 24))) ∧
    ((0 : Nat) &&& BLOCK_HAS_COPY_DISPOSE = 0 →
      (BDRec.mk 0 0 0 0x30 none none none none none none).copy = none ∧
      (BDRec.mk 0 0 0 0x30 none none none none none none).dispose = none) ∧
    ((0 : Nat) &&& BLOCK_HAS_SIGNATURE ≠ 0 →
      (BDRec.mk 0 0 0 0x30 none none none none none none).signature.isSome ∧
      (BDRec.mk 0 0 0 0x30 none none none none none none).layout.isSome) ∧
    ((0 : Nat) &&& BLOCK_HAS_SIGNATURE = 0 →
      (BDRec.mk 0 0 0 0x30 none none none none none none).signature = none ∧
      (BDRec.mk 0 0 0 0x30 none none none none none none).layout = none) :=
  (c6_descriptor_decode (fun a => if a = 8 then 0x30 else 0) (fun _ => none) 0 0).2.2
    (BDRec.mk 0 0 0 0x30 none none none none none none) (by decide)

/-- Claim C9: every successfully constructed BlockLiteral satisfies
invoke != 0 and descriptor != 0, and is the Global (non-stack) variant if
and only if the IS_GLOBAL bit is set in flags; construction fails when any
of these invariants is violated. -/
theorem c9_literal_invariants (isStack : Bool) (address isa flags : Nat)
    (reserved : Option Nat) (invoke descriptor : Nat) :
    (∀ bl, blockLiteralInit isStack address isa flags reserved invoke descriptor = .ok bl →
       bl.invoke ≠ 0 ∧ bl.descriptor ≠ 0 ∧
       (bl.is_stack_block = false ↔ flags &&& BLOCK_IS_GLOBAL ≠ 0) ∧
       bl.is_stack_block = isStack) ∧
    ((invoke = 0 ∨ descriptor = 0 ∨
      (isStack = true ∧ flags &&& BLOCK_IS_GLOBAL ≠ 0) ∨
      (isStack = false ∧ flags &&& BLOCK_IS_GLOBAL = 0)) →
      ∃ e, blockLiteralInit isStack address isa flags reserved invoke descriptor = .error e) := by
  unfold blockLiteralInit
  constructor
  · intro bl h
    by_cases h1 : invoke = 0
    · rw [if_pos h1] at h
      exact Except.noConfusion h
    rw [if_neg h1] at h
    by_cases h2 : descriptor = 0
    · rw [if_pos h2] at h
      exact Except.noConfusion h
    rw [if_neg h2] at h
    cases isStack with
    | true =>
      rw [if_pos rfl] at h
      by_cases h3 : flags &&& BLOCK_IS_GLOBAL = 0
      · rw [if_pos h3] at h
        cases h
        exact ⟨h1, h2, by simp [h3], rfl⟩
      · rw [if_neg h3] at h
        exact Except.noConfusion h
    | false =>
      rw [if_neg (by simp)] at h
      by_cases h3 : flags &&& BLOCK_IS_GLOBAL = 0
      · rw [if_pos h3] at h
        exact Except.noConfusion h
      · rw [if_neg h3] at h
        cases h
        exact ⟨h1, h2, by simp [h3], rfl⟩
  · intro h
    by_cases h1 : invoke = 0
    · exact ⟨_, by rw [if_pos h1]⟩
    by_cases h2 : descriptor = 0
    · exact ⟨_, by rw [if_neg h1, if_pos h2]⟩
    rcases h with h | h | ⟨hs, hg⟩ | ⟨hs, hg⟩
    · exact absurd h h1
    · exact absurd h h2
    · subst hs
      exact ⟨_, by rw [if_neg h1, if_neg h2, if_pos rfl, if_neg hg]⟩
    · subst hs
      exact ⟨_, by rw [if_neg h1, if_neg h2, if_neg (by simp), if_pos hg]⟩

/-- Claim C2 input: the instruction stream of the spec scenario, on
variable 7: field 3 (invoke 0x4000), field 1 (flags 0x02000000), field 4
(descriptor 0x5000), and the initialization of the variable itself to the
stack-block marker (after the Block_literal retype this appears as a
member-0 struct-field assignment of the import).  No assignment to
field 2 (reserved). -/
def c2insns : List HInsn :=
  [.assignField (.hvar 7) 3 (.const 0x4000),
   .assignField (.hvar 7) 1 (.const 0x02000000),
   .assignField (.hvar 7) 4 (.constPtr 0x5000),
   .assignField (.hvar 7) 0 (.imp "__NSConcreteStackBlock" 0x9000)]

/-- The same stream with an assignment to field 2 (reserved) added. -/
def c2insnsFull : List HInsn :=
  c2insns ++ [.assignField (.hvar 7) 2 (.const 0)]

/-- Claim C2 counterexample: on the exact stream of the claim - with no
assignment to field 2 - from_stack does not succeed: the reserved local is
never bound and the constructor call raises UnboundLocalError, so no
Stack-variant literal is returned. -/
theorem c2_counterexample_missing_reserved :
    from_stack c2insns 7 0x7777 = .error "UnboundLocalError: header field never assigned" := by
  decide

set_option maxRecDepth 4096 in
/-- Claim C2 (amended): with an assignment to field 2 (reserved) also
present, the matcher succeeds for every ordering of the five header
assignments, yielding the Stack-variant literal. -/
theorem c2_any_order_with_reserved :
    ∀ p, p.Perm c2insnsFull →
      from_stack p 7 0x7777 =
        .ok ⟨true, 0x7777, 0x9000, 0x02000000, some 0, 0x4000, 0x5000⟩ := by
  intro p hp
  have hmem : p ∈ c2insnsFull.permutations' := List.mem_permutations'.mpr hp
  exact (by decide :
    ∀ q ∈ c2insnsFull.permutations',
      from_stack q 7 0x7777 =
        .ok ⟨true, 0x7777, 0x9000, 0x02000000, some 0, 0x4000, 0x5000⟩) p hmem

/-- Claim C2 witness: the amended theorem applied at the in-order
permutation. -/
theorem c2_any_order_with_reserved_witness :
    from_stack c2insnsFull 7 0x7777 =
      .ok ⟨true, 0x7777, 0x9000, 0x02000000, some 0, 0x4000, 0x5000⟩ :=
  c2_any_order_with_reserved c2insnsFull (List.Perm.refl _)

/-- Claim C3 counterexample: an assignment whose destination base shape is
unrecognized, followed by a complete set of header assignments that would
otherwise succeed (compare c2_any_order_with_reserved_witness).  The scan
does not skip the unrecognized assignment and continue: the generator
raises NotImplementedError, aborting the instance. -/
theorem c3_counterexample_unrecognized_dest :
    from_stack (.assignField (.otherRoot "HighLevelILDeref") 5 (.const 1) :: c2insnsFull) 7 0x7777 =
      .error "NotImplementedError: Unhandled destination source type in assign insn, fix plugin" := by
  decide

/-- Claim C3 (amended): destination bases that are a deref-field access,
or an array-index or field chain not rooted at a plain variable, are
skipped and the scan continues with the remaining instructions; any other
unrecognized destination base raises NotImplementedError, which aborts
the scan (and with it that instance's processing). -/
theorem c3_dest_shape_handling (d : String) (mi : Nat) (src : HSrc)
    (rest : List HInsn) (vid : Nat) (st : FSState) :
    (fromStackLoop (.assignField (.otherRoot d) mi src :: rest) vid st =
      .error "NotImplementedError: Unhandled destination source type in assign insn, fix plugin") ∧
    (fromStackLoop (.assignField .derefFieldRoot mi src :: rest) vid st =
      fromStackLoop rest vid st) ∧
    (fromStackLoop (.assignField .arrayIndexOther mi src :: rest) vid st =
      fromStackLoop rest vid st) ∧
    (fromStackLoop (.assignField .fieldOther mi src :: rest) vid st =
      fromStackLoop rest vid st) :=
  ⟨rfl, rfl, rfl, rfl⟩

/-- Claim C1 input: a concrete byte memory holding the global literal of
the spec scenario at 0x100 (isa 0x1000, flags 0x10000000, reserved 0,
invoke 0x2000, descriptor 0x3000) and its descriptor at 0x3000
(reserved 0, size 0x28, flags lack HAS_COPY_DISPOSE and HAS_SIGNATURE). -/
def c1mem : Nat → Nat := fun a =>
  if a = 0x101 then 0x10
  else if a = 0x10b then 0x10
  else if a = 0x111 then 0x20
  else if a = 0x119 then 0x30
  else if a = 0x3008 then 0x28
  else 0

/-- Claim C1: on the spec's end-to-end global scenario the pipeline does
not produce an annotated literal with a SizeMismatch diagnostic of 8
bytes; it aborts the instance with an AttributeError, because the
descriptor constructor never sets the layout attribute when HAS_SIGNATURE
is clear, yet annotate_literal reads it whenever imported_variables_size
is positive. -/
theorem c1_pipeline_attribute_error :
    annotate_global_pipeline c1mem (fun _ => none) (fun _ => []) 0x100 =
      .error "AttributeError: BlockDescriptor object has no attribute layout" ∧
    (decodeDescriptor c1mem (fun _ => none) 0x3000 0x10000000).1 =
      .ok ⟨0x3000, 0x10000000, 0, 0x28, none, none, none, none, none, none⟩ := by
  constructor
  · decide
  · decide

/-- Claim C10 input: a function with two byref variables (10 and 11);
variable 10 has constant flags (0x30000000, strong payload) and size
(0x30) assignments, variable 11 has none. -/
def c10insns : List HInsn :=
  [.varDeclare 10, .varDeclare 11,
   .assignField (.hvar 10) 2 (.const 0x30000000),
   .assignField (.hvar 10) 3 (.const 0x30)]

def c10ctx : ByrefCtx := ⟨c10insns, fun _ => []⟩

/-- Claim C10: the reported-as-failed-and-skipped behavior holds only for
a byref whose scan finds nothing while the byref_flags and byref_size
locals are still unbound (second conjunct).  When an earlier byref of the
same literal already bound them, a later byref with no flags or size
assignments at all is not reported or skipped: the stale values from the
previous iteration are reused and the byref is annotated with them (first
conjunct: the second byref gets the first byref's flags 0x30000000 and
size 0x30). -/
theorem c10_stale_locals_reused :
    processByrefPass c10ctx ⟨none, none, none⟩
        [(some (.addressOfVar 10), 5), (some (.addressOfVar 11), 6)] =
      .ok [.annotated (byrefHeader ++ [] ++ [⟨"strong_ptr_0", .tId⟩]) 0x30000000 0x30,
           .annotated (byrefHeader ++ [] ++ [⟨"strong_ptr_0", .tId⟩]) 0x30000000 0x30] ∧
    processByrefPass c10ctx ⟨none, none, none⟩ [(some (.addressOfVar 11), 6)] =
      .ok [.missingFlagsSize] := by
  constructor
  · decide
  · decide

lemma assembleLiteralStruct_size_indep (bd : BDRec) (region : Nat → List Nat) (sz : Nat)
    (h1 : 0x20 < bd.size) (h2 : 0x20 < sz) :
    assembleLiteralStruct { bd with size := sz } region = assembleLiteralStruct bd region := by
  unfold assembleLiteralStruct
  have hA : 0 < ({ bd with size := sz } : BDRec).imported_variables_size := by
    unfold BDRec.imported_variables_size
    dsimp only
    omega
  have hB : 0 < bd.imported_variables_size := by
    unfold BDRec.imported_variables_size
    omega
  rw [if_pos hA, if_pos hB]
  rfl

/-- Claim C7: for a literal whose annotation completed, the SizeMismatch
diagnostic carrying the byte gap (declared size minus decoded width) is
attached if and only if the decoded width is strictly below the declared
size; at exact equality no diagnostic is produced; and the declared size
never changes the assembled structure or blocks the annotation (varying it
over sizes above the header only moves the diagnostic). -/
theorem c7_size_mismatch (bl : BlockLiteral) (sv : StackVarInfo) (bd : BDRec)
    (region : Nat → List Nat) (r : ALRes)
    (h : annotate_literal bl sv bd region = .ok r) (ha : r.already = false) :
    (r.n_unaccounted.isSome ↔ structWidth r.struct < bd.size) ∧
    (structWidth r.struct < bd.size → r.n_unaccounted = some (bd.size - structWidth r.struct)) ∧
    (structWidth r.struct = bd.size → r.n_unaccounted = none) ∧
    (∀ sz, 0x20 < bd.size → 0x20 < sz →
      ∃ r', annotate_literal bl sv { bd with size := sz } region = .ok r' ∧
        r'.struct = r.struct ∧ r'.already = false ∧
        (r'.n_unaccounted.isSome ↔ structWidth r'.struct < sz)) := by
  unfold annotate_literal at h
  cases has : assembleLiteralStruct bd region with
  | error e =>
    rw [has] at h
    exact Except.noConfusion h
  | ok trip =>
    obtain ⟨s, bi, le⟩ := trip
    rw [has] at h
    dsimp only at h
    cases hsb : bl.is_stack_block with
    | false =>
      rw [hsb] at h
      simp only [Bool.false_eq_true, if_false] at h
      have hmain : ∀ sz, 0x20 < bd.size → 0x20 < sz →
          ∃ r', annotate_literal bl sv { bd with size := sz } region = .ok r' ∧
            r'.struct = s ∧ r'.already = false ∧
            (r'.n_unaccounted.isSome ↔ structWidth r'.struct < sz) := by
        intro sz h1 h2
        unfold annotate_literal
        rw [assembleLiteralStruct_size_indep bd region sz h1 h2, has]
        dsimp only
        rw [hsb]
        simp only [Bool.false_eq_true, if_false]
        by_cases hlt2 : structWidth s < sz
        · exact ⟨⟨s, bi, le, false, some (sz - structWidth s)⟩, by rw [if_pos hlt2], rfl, rfl,
            by simp [hlt2]⟩
        · exact ⟨⟨s, bi, le, false, none⟩, by rw [if_neg hlt2], rfl, rfl, by simp [hlt2]⟩
      by_cases hlt : structWidth s < bd.size
      · rw [if_pos hlt] at h
        cases h
        exact ⟨by simp [hlt], fun _ => rfl,
          fun he => absurd he (show structWidth s ≠ bd.size by omega), hmain⟩
      · rw [if_neg hlt] at h
        cases h
        exact ⟨by simp [hlt], fun he => absurd he hlt, fun _ => rfl, hmain⟩
    | true =>
      rw [hsb] at h
      simp only [if_true] at h
      cases sv with
      | unresolvable d =>
        exact Except.noConfusion h
      | resolvable tn =>
        dsimp only at h
        by_cases hC : (tn.startsWith "struct Block_literal_" &&
            tn != struct_type_name bl.address) = true
        · rw [if_pos hC] at h
          cases h
          exact absurd ha (by simp)
        · rw [if_neg hC] at h
          have hmain : ∀ sz, 0x20 < bd.size → 0x20 < sz →
              ∃ r', annotate_literal bl (.resolvable tn) { bd with size := sz } region = .ok r' ∧
                r'.struct = s ∧ r'.already = false ∧
                (r'.n_unaccounted.isSome ↔ structWidth r'.struct < sz) := by
            intro sz h1 h2
            unfold annotate_literal
            rw [assembleLiteralStruct_size_indep bd region sz h1 h2, has]
            dsimp only
            rw [hsb]
            simp only [if_true]
            rw [if_neg hC]
            by_cases hlt2 : structWidth s < sz
            · exact ⟨⟨s, bi, le, false, some (sz - structWidth s)⟩, by rw [if_pos hlt2], rfl, rfl,
                by simp [hlt2]⟩
            · exact ⟨⟨s, bi, le, false, none⟩, by rw [if_neg hlt2], rfl, rfl, by simp [hlt2]⟩
          by_cases hlt : structWidth s < bd.size
          · rw [if_pos hlt] at h
            cases h
            exact ⟨by simp [hlt], fun _ => rfl,
          fun he => absurd he (show structWidth s ≠ bd.size by omega), hmain⟩
          · rw [if_neg hlt] at h
            cases h
            exact ⟨by simp [hlt], fun he => absurd he hlt, fun _ => rfl, hmain⟩

/-- Claim C7 witness: the theorem applied to a concrete global literal
with a descriptor one byte wider than the assembled header (width 32,
declared size 0x21), which carries a diagnostic of exactly 1 byte. -/
theorem c7_size_mismatch_witness :
    ((some (1 : Nat)).isSome ↔
      structWidth (ALRes.mk headerMembers (some []) none false (some 1)).struct <
        (BDRec.mk 0x3000 0 0 0x21 none none none none (some 0) none).size) ∧
    (structWidth (ALRes.mk headerMembers (some []) none false (some 1)).struct <
        (BDRec.mk 0x3000 0 0 0x21 none none none none (some 0) none).size →
      (ALRes.mk headerMembers (some []) none false (some 1)).n_unaccounted =
        some ((BDRec.mk 0x3000 0 0 0x21 none none none none (some 0) none).size -
          structWidth (ALRes.mk headerMembers (some []) none false (some 1)).struct)) ∧
    (structWidth (ALRes.mk headerMembers (some []) none false (some 1)).struct =
        (BDRec.mk 0x3000 0 0 0x21 none none none none (some 0) none).size →
      (ALRes.mk headerMembers (some []) none false (some 1)).n_unaccounted = none) ∧
    (∀ sz, 0x20 < (BDRec.mk 0x3000 0 0 0x21 none none none none (some 0) none).size →
      0x20 < sz →
      ∃ r', annotate_literal ⟨false, 0x100, 0, 0, some 0, 1, 1⟩ (.resolvable "")
          { BDRec.mk 0x3000 0 0 0x21 none none none none (some 0) none with size := sz }
          (fun _ => []) = .ok r' ∧
        r'.struct = (ALRes.mk headerMembers (some []) none false (some 1)).struct ∧
        r'.already = false ∧
        (r'.n_unaccounted.isSome ↔ structWidth r'.struct < sz)) :=
  c7_size_mismatch ⟨false, 0x100, 0, 0, some 0, 1, 1⟩ (.resolvable "")
    (BDRec.mk 0x3000 0 0 0x21 none none none none (some 0) none) (fun _ => [])
    (ALRes.mk headerMembers (some []) none false (some 1)) (by decide) (by decide)

lemma runBytecode_extends :
    ∀ (bytes : List Nat) (off : Nat) (s : List Member) (bi : Option (List Nat))
      (w : List String) (res : List Member × Option (List Nat) × Nat × List String),
      runBytecode off bytes s bi w = .ok res →
      ∃ t, res.1 = s ++ t ∧
        ∀ m ∈ t, m.ty = FieldType.tId ∨ m.ty = FieldType.tU64 ∨
          ∃ n, m.ty = FieldType.tU8Array n := by
  intro bytes
  induction bytes with
  | nil =>
    intro off s bi w res h
    rw [runBytecode] at h
    exact Except.noConfusion h
  | cons b rest ih =>
    intro off s bi w res h
    rw [runBytecode] at h
    dsimp only at h
    by_cases h0 : (b % 256) / 16 = BLOCK_LAYOUT_ESCAPE
    · rw [if_pos h0] at h
      cases h
      exact ⟨[], by simp, by simp⟩
    rw [if_neg h0] at h
    by_cases hc1 : (b % 256) / 16 = BLOCK_LAYOUT_NON_OBJECT_BYTES
    · rw [if_pos hc1] at h
      obtain ⟨t, ht, hm⟩ := ih _ _ _ _ _ h
      refine ⟨⟨"non_object_" ++ hexStr (structWidth s), .tU8Array (b % 256 % 16)⟩ :: t, ?_, ?_⟩
      · rw [ht, appendMember]
        simp
      · intro m hm'
        rcases List.mem_cons.mp hm' with hh | hh
        · subst hh
          exact Or.inr (Or.inr ⟨_, rfl⟩)
        · exact hm m hh
    rw [if_neg hc1] at h
    by_cases hc2 : (b % 256) / 16 = BLOCK_LAYOUT_NON_OBJECT_WORDS
    · rw [if_pos hc2] at h
      obtain ⟨t, ht, hm⟩ := ih _ _ _ _ _ h
      obtain ⟨t0, ht0, _, hm0⟩ := appendWords_spec (b % 256 % 16) s
      refine ⟨t0 ++ t, ?_, ?_⟩
      · rw [ht, ht0, List.append_assoc]
      · intro m hm'
        rcases List.mem_append.mp hm' with hh | hh
        · exact Or.inr (Or.inl (hm0 m hh).1)
        · exact hm m hh
    rw [if_neg hc2] at h
    by_cases hc3 : (b % 256) / 16 = BLOCK_LAYOUT_STRONG
    · rw [if_pos hc3] at h
      obtain ⟨t, ht, hm⟩ := ih _ _ _ _ _ h
      obtain ⟨t0, ht0, _, hm0⟩ := appendPtrs_spec "strong_ptr_" (b % 256 % 16) s
      refine ⟨t0 ++ t, ?_, ?_⟩
      · rw [ht, ht0, List.append_assoc]
      · intro m hm'
        rcases List.mem_append.mp hm' with hh | hh
        · exact Or.inl (hm0 m hh).1
        · exact hm m hh
    rw [if_neg hc3] at h
    by_cases hc4 : (b % 256) / 16 = BLOCK_LAYOUT_BYREF
    · rw [if_pos hc4] at h
      obtain ⟨t, ht, hm⟩ := ih _ _ _ _ _ h
      obtain ⟨t0, ht0, _, hm0⟩ := appendByrefPtrs_spec (b % 256 % 16) s bi
      rw [ht0] at ht
      refine ⟨t0 ++ t, ?_, ?_⟩
      · rw [ht, List.append_assoc]
      · intro m hm'
        rcases List.mem_append.mp hm' with hh | hh
        · exact Or.inl (hm0 m hh).1
        · exact hm m hh
    rw [if_neg hc4] at h
    by_cases hc5 : (b % 256) / 16 = BLOCK_LAYOUT_WEAK
    · rw [if_pos hc5] at h
      obtain ⟨t, ht, hm⟩ := ih _ _ _ _ _ h
      obtain ⟨t0, ht0, _, hm0⟩ := appendPtrs_spec "weak_ptr_" (b % 256 % 16) s
      refine ⟨t0 ++ t, ?_, ?_⟩
      · rw [ht, ht0, List.append_assoc]
      · intro m hm'
        rcases List.mem_append.mp hm' with hh | hh
        · exact Or.inl (hm0 m hh).1
        · exact hm m hh
    rw [if_neg hc5] at h
    by_cases hc6 : (b % 256) / 16 = BLOCK_LAYOUT_UNRETAINED
    · rw [if_pos hc6] at h
      obtain ⟨t, ht, hm⟩ := ih _ _ _ _ _ h
      obtain ⟨t0, ht0, _, hm0⟩ := appendPtrs_spec "unretained_ptr_" (b % 256 % 16) s
      refine ⟨t0 ++ t, ?_, ?_⟩
      · rw [ht, ht0, List.append_assoc]
      · intro m hm'
        rcases List.mem_append.mp hm' with hh | hh
        · exact Or.inl (hm0 m hh).1
        · exact hm m hh
    rw [if_neg hc6] at h
    cases h
    exact ⟨[], by simp, by simp⟩

lemma append_layout_fields_extends (layout : Nat) (ext : Bool) (lb : List Nat)
    (s : List Member) (bi : Option (List Nat)) (hle : Bool) (r : LayoutResult)
    (h : append_layout_fields layout ext lb s bi hle = .ok r) :
    ∃ t, r.struct = s ++ t ∧
      ∀ m ∈ t, m.ty = FieldType.tId ∨ m.ty = FieldType.tU64 ∨
        ∃ n, m.ty = FieldType.tU8Array n := by
  unfold append_layout_fields at h
  by_cases h0 : layout = 0
  · rw [if_pos h0] at h
    cases h
    exact ⟨[], by simp, by simp⟩
  rw [if_neg h0] at h
  by_cases hx : (!ext) = true
  · rw [if_pos hx] at h
    cases h
    exact ⟨[], by simp, by simp⟩
  rw [if_neg hx] at h
  by_cases hsm : layout < 0x1000
  · rw [if_pos hsm] at h
    dsimp only at h
    obtain ⟨ts, hts, _, hms⟩ := appendPtrs_spec "strong_ptr_" ((layout >>> 8) &&& 0xf) s
    rw [hts] at h
    obtain ⟨tb, htb, _, hmb⟩ := appendByrefPtrs_spec ((layout >>> 4) &&& 0xf) (s ++ ts) bi
    rw [htb] at h
    dsimp only at h
    obtain ⟨tw, htw, _, hmw⟩ := appendPtrs_spec "weak_ptr_" (layout &&& 0xf) (s ++ ts ++ tb)
    rw [htw] at h
    cases h
    refine ⟨ts ++ tb ++ tw, by simp [List.append_assoc], ?_⟩
    intro m hm'
    rcases List.mem_append.mp hm' with hh | hh
    · rcases List.mem_append.mp hh with hhh | hhh
      · exact Or.inl (hms m hhh).1
      · exact Or.inl (hmb m hhh).1
    · exact Or.inl (hmw m hh).1
  · rw [if_neg hsm] at h
    cases hrun : runBytecode layout lb s bi [] with
    | error e =>
      rw [hrun] at h
      exact Except.noConfusion h
    | ok quad =>
      obtain ⟨s', bi', endOff, ws⟩ := quad
      rw [hrun] at h
      dsimp only at h
      cases h
      obtain ⟨t, ht, hm⟩ := runBytecode_extends lb layout s bi [] (s', bi', endOff, ws) hrun
      exact ⟨t, ht, hm⟩

lemma set_append_length (xs : List Member) (x y : Member) :
    (xs ++ [x]).set xs.length y = xs ++ [y] := by
  induction xs with
  | nil => rfl
  | cons a as ih =>
    simp only [List.cons_append, List.length_cons, List.set_cons_succ, ih]

lemma keep_mem_kd (flags : Nat) :
    (⟨"byref_keep", .tKeepFn⟩ : Member) ∈ byrefKeepDestroy flags ↔
      flags &&& BLOCK_BYREF_HAS_COPY_DISPOSE ≠ 0 := by
  unfold byrefKeepDestroy
  by_cases h : flags &&& BLOCK_BYREF_HAS_COPY_DISPOSE = 0
  · rw [if_neg (by simp [h])]
    simp [h]
  · rw [if_pos (by simp [h])]
    simp [h]

/-- The decomposition of a successfully assembled extended-layout byref
structure: header, optional keep/destroy pair, the layout member, and the
slots of the nested bytecode decode. -/
lemma buildByref_extended_decomp (insns : List HInsn) (vid flags : Nat)
    (prevL : Option Nat) (region : Nat → List Nat)
    (hnib : flags &&& BLOCK_BYREF_LAYOUT_MASK = BLOCK_BYREF_LAYOUT_EXTENDED)
    (s : List Member) (pl : Option Nat)
    (hok : buildByrefStruct insns vid flags prevL region = .ok (s, pl)) :
    ∃ lm slots, s = byrefHeader ++ byrefKeepDestroy flags ++ [lm] ++ slots ∧
      lm.name = "layout" ∧
      (lm.ty = FieldType.tVoidPtr ∨ lm.ty = FieldType.tU64 ∨ lm.ty = FieldType.tU8ConstPtr) ∧
      ∀ m ∈ slots, m.ty = FieldType.tId ∨ m.ty = FieldType.tU64 ∨
        ∃ n, m.ty = FieldType.tU8Array n := by
  unfold buildByrefStruct at hok
  rw [if_pos hnib] at hok
  dsimp only at hok
  cases hscan : scanByrefLayout insns vid (byrefHeader ++ byrefKeepDestroy flags).length with
  | error e =>
    rw [hscan] at hok
    exact Except.noConfusion hok
  | ok found =>
    rw [hscan] at hok
    dsimp only at hok
    cases hfb : found.orElse fun _ => prevL with
    | none =>
      rw [hfb] at hok
      exact Except.noConfusion hok
    | some L =>
      rw [hfb] at hok
      dsimp only at hok
      by_cases hL0 : L ≠ 0
      · rw [if_pos hL0] at hok
        by_cases hLc : L < 0x1000
        · rw [if_pos hLc] at hok
          cases half : append_layout_fields L true (region L)
              (replaceMember ((byrefHeader ++ byrefKeepDestroy flags) ++ [⟨"layout", .tVoidPtr⟩])
                (byrefHeader ++ byrefKeepDestroy flags).length ⟨"layout", .tU64⟩) none false with
          | error e =>
            rw [half] at hok
            exact Except.noConfusion hok
          | ok r =>
            rw [half] at hok
            dsimp only at hok
            obtain ⟨t, ht, hm⟩ := append_layout_fields_extends _ _ _ _ _ _ _ half
            cases hok
            refine ⟨⟨"layout", .tU64⟩, t, ?_, rfl, Or.inr (Or.inl rfl), hm⟩
            rw [ht]
            unfold replaceMember
            rw [set_append_length]
        · rw [if_neg hLc] at hok
          cases half : append_layout_fields L true (region L)
              (replaceMember ((byrefHeader ++ byrefKeepDestroy flags) ++ [⟨"layout", .tVoidPtr⟩])
                (byrefHeader ++ byrefKeepDestroy flags).length ⟨"layout", .tU8ConstPtr⟩) none false with
          | error e =>
            rw [half] at hok
            exact Except.noConfusion hok
          | ok r =>
            rw [half] at hok
            dsimp only at hok
            obtain ⟨t, ht, hm⟩ := append_layout_fields_extends _ _ _ _ _ _ _ half
            cases hok
            refine ⟨⟨"layout", .tU8ConstPtr⟩, t, ?_, rfl, Or.inr (Or.inr rfl), hm⟩
            rw [ht]
            unfold replaceMember
            rw [set_append_length]
      · rw [if_neg hL0] at hok
        cases half : append_layout_fields L true (region L)
            ((byrefHeader ++ byrefKeepDestroy flags) ++ [⟨"layout", .tVoidPtr⟩]) none false with
        | error e =>
          rw [half] at hok
          exact Except.noConfusion hok
        | ok r =>
          rw [half] at hok
          dsimp only at hok
          obtain ⟨t, ht, hm⟩ := append_layout_fields_extends _ _ _ _ _ _ _ half
          cases hok
          exact ⟨⟨"layout", .tVoidPtr⟩, t, by rw [ht], rfl, Or.inl rfl, hm⟩

lemma keep_mem_simple (flags : Nat) (p : Member) (hp : p.ty ≠ FieldType.tKeepFn) :
    ((⟨"byref_keep", .tKeepFn⟩ : Member) ∈ byrefHeader ++ byrefKeepDestroy flags ++ [p] ↔
      flags &&& BLOCK_BYREF_HAS_COPY_DISPOSE ≠ 0) := by
  constructor
  · intro hmem
    rcases List.mem_append.mp hmem with hh | hh
    · rcases List.mem_append.mp hh with hhh | hhh
      · exact absurd hhh (by decide)
      · exact (keep_mem_kd flags).mp hhh
    · have heq := List.mem_singleton.mp hh
      exact absurd (congrArg Member.ty heq).symm hp
  · intro hflag
    exact List.mem_append.mpr (Or.inl (List.mem_append.mpr (Or.inr ((keep_mem_kd flags).mpr hflag))))

/-- Claim C8: each of the five byref layout-nibble values selects exactly
one, mutually exclusive, payload appended after the fixed header and the
optional keep/destroy pair: NonObject one opaque word, Strong, Weak and
Unretained one pointer slot each, Extended the layout member plus the zero
or more slots of a nested bytecode decode; and the byref_keep (with
byref_destroy) members are present if and only if the byref copy-dispose
flag bit is set. -/
theorem c8_byref_payload (insns : List HInsn) (vid flags : Nat) (prevL : Option Nat)
    (region : Nat → List Nat) :
    (flags &&& BLOCK_BYREF_LAYOUT_MASK = BLOCK_BYREF_LAYOUT_NON_OBJECT →
      buildByrefStruct insns vid flags prevL region =
        .ok (byrefHeader ++ byrefKeepDestroy flags ++ [⟨"non_object_0", .tU64⟩], prevL)) ∧
    (flags &&& BLOCK_BYREF_LAYOUT_MASK = BLOCK_BYREF_LAYOUT_STRONG →
      buildByrefStruct insns vid flags prevL region =
        .ok (byrefHeader ++ byrefKeepDestroy flags ++ [⟨"strong_ptr_0", .tId⟩], prevL)) ∧
    (flags &&& BLOCK_BYREF_LAYOUT_MASK = BLOCK_BYREF_LAYOUT_WEAK →
      buildByrefStruct insns vid flags prevL region =
        .ok (byrefHeader ++ byrefKeepDestroy flags ++ [⟨"weak_ptr_0", .tId⟩], prevL)) ∧
    (flags &&& BLOCK_BYREF_LAYOUT_MASK = BLOCK_BYREF_LAYOUT_UNRETAINED →
      buildByrefStruct insns vid flags prevL region =
        .ok (byrefHeader ++ byrefKeepDestroy flags ++ [⟨"unretained_ptr_0", .tId⟩], prevL)) ∧
    (flags &&& BLOCK_BYREF_LAYOUT_MASK = BLOCK_BYREF_LAYOUT_EXTENDED →
      ∀ s pl, buildByrefStruct insns vid flags prevL region = .ok (s, pl) →
        ∃ lm slots, s = byrefHeader ++ byrefKeepDestroy flags ++ [lm] ++ slots ∧
          lm.name = "layout" ∧
          ∀ m ∈ slots, m.ty = FieldType.tId ∨ m.ty = FieldType.tU64 ∨
            ∃ n, m.ty = FieldType.tU8Array n) ∧
    (∀ s pl, buildByrefStruct insns vid flags prevL region = .ok (s, pl) →
      ((⟨"byref_keep", .tKeepFn⟩ : Member) ∈ s ↔
        flags &&& BLOCK_BYREF_HAS_COPY_DISPOSE ≠ 0)) := by
  refine ⟨?_, ?_, ?_, ?_, ?_, ?_⟩
  · intro h
    unfold buildByrefStruct
    dsimp only
    rw [if_neg (by rw [h]; decide), if_pos h]
  · intro h
    unfold buildByrefStruct
    dsimp only
    rw [if_neg (by rw [h]; decide), if_neg (by rw [h]; decide), if_pos h]
  · intro h
    unfold buildByrefStruct
    dsimp only
    rw [if_neg (by rw [h]; decide), if_neg (by rw [h]; decide), if_neg (by rw [h]; decide),
      if_pos h]
  · intro h
    unfold buildByrefStruct
    dsimp only
    rw [if_neg (by rw [h]; decide), if_neg (by rw [h]; decide), if_neg (by rw [h]; decide),
      if_neg (by rw [h]; decide), if_pos h]
  · intro h s pl hok
    obtain ⟨lm, slots, hs, hname, _, hslots⟩ :=
      buildByref_extended_decomp insns vid flags prevL region h s pl hok
    exact ⟨lm, slots, hs, hname, hslots⟩
  · intro s pl hok
    by_cases h1 : flags &&& BLOCK_BYREF_LAYOUT_MASK = BLOCK_BYREF_LAYOUT_EXTENDED
    · obtain ⟨lm, slots, hs, _, hlty, hslots⟩ :=
        buildByref_extended_decomp insns vid flags prevL region h1 s pl hok
      subst hs
      constructor
      · intro hmem
        rcases List.mem_append.mp hmem with hh | hh
        · rcases List.mem_append.mp hh with hhh | hhh
          · rcases List.mem_append.mp hhh with h4 | h4
            · exact absurd h4 (by decide)
            · exact (keep_mem_kd flags).mp h4
          · have heq := List.mem_singleton.mp hhh
            have hty : FieldType.tKeepFn = lm.ty := congrArg Member.ty heq
            rcases hlty with ht | ht | ht <;> rw [ht] at hty <;> exact FieldType.noConfusion hty
        · rcases hslots _ hh with ht | ht | ⟨n, ht⟩ <;> exact FieldType.noConfusion ht
      · intro hflag
        exact List.mem_append.mpr (Or.inl (List.mem_append.mpr (Or.inl
          (List.mem_append.mpr (Or.inr ((keep_mem_kd flags).mpr hflag))))))
    · unfold buildByrefStruct at hok
      dsimp only at hok
      rw [if_neg h1] at hok
      by_cases h2 : flags &&& BLOCK_BYREF_LAYOUT_MASK = BLOCK_BYREF_LAYOUT_NON_OBJECT
      · rw [if_pos h2] at hok
        cases hok
        exact keep_mem_simple flags _ (by decide)
      rw [if_neg h2] at hok
      by_cases h3 : flags &&& BLOCK_BYREF_LAYOUT_MASK = BLOCK_BYREF_LAYOUT_STRONG
      · rw [if_pos h3] at hok
        cases hok
        exact keep_mem_simple flags _ (by decide)
      rw [if_neg h3] at hok
      by_cases h4 : flags &&& BLOCK_BYREF_LAYOUT_MASK = BLOCK_BYREF_LAYOUT_WEAK
      · rw [if_pos h4] at hok
        cases hok
        exact keep_mem_simple flags _ (by decide)
      rw [if_neg h4] at hok
      by_cases h5 : flags &&& BLOCK_BYREF_LAYOUT_MASK = BLOCK_BYREF_LAYOUT_UNRETAINED
      · rw [if_pos h5] at hok
        cases hok
        exact keep_mem_simple flags _ (by decide)
      rw [if_neg h5] at hok
      cases hok
      constructor
      · intro hmem
        rcases List.mem_append.mp hmem with hh | hh
        · exact absurd hh (by decide)
        · exact (keep_mem_kd flags).mp hh
      · intro hflag
        exact List.mem_append.mpr (Or.inr ((keep_mem_kd flags).mpr hflag))

/-- Claim C8 witness: the theorem applied at the strong nibble
(flags 0x30000000, copy-dispose bit clear): exactly one strong-pointer
payload and no byref_keep member. -/
theorem c8_byref_payload_witness :
    buildByrefStruct [] 0 0x30000000 none (fun _ => []) =
      .ok (byrefHeader ++ byrefKeepDestroy 0x30000000 ++ [⟨"strong_ptr_0", .tId⟩], none) ∧
    ((⟨"byref_keep", .tKeepFn⟩ : Member) ∈
        byrefHeader ++ byrefKeepDestroy 0x30000000 ++ [⟨"strong_ptr_0", .tId⟩] ↔
      (0x30000000 : Nat) &&& BLOCK_BYREF_HAS_COPY_DISPOSE ≠ 0) :=
  ⟨(c8_byref_payload [] 0 0x30000000 none (fun _ => [])).2.1 (by decide),
   (c8_byref_payload [] 0 0x30000000 none (fun _ => [])).2.2.2.2.2
     (byrefHeader ++ byrefKeepDestroy 0x30000000 ++ [⟨"strong_ptr_0", .tId⟩]) none
     ((c8_byref_payload [] 0 0x30000000 none (fun _ => [])).2.1 (by decide))⟩

/-- Claim C9 witness: the theorem's success direction applied at a
concretely constructed stack literal, and its failure direction at the
same literal with the IS_GLOBAL bit wrongly set. -/
theorem c9_literal_invariants_witness :
    ((⟨true, 0x50, 0x9000, 0x02000000, some 0, 0x4000, 0x5000⟩ : BlockLiteral).invoke ≠ 0 ∧
     (⟨true, 0x50, 0x9000, 0x02000000, some 0, 0x4000, 0x5000⟩ : BlockLiteral).descriptor ≠ 0 ∧
     ((⟨true, 0x50, 0x9000, 0x02000000, some 0, 0x4000, 0x5000⟩ : BlockLiteral).is_stack_block = false ↔
       (0x02000000 : Nat) &&& BLOCK_IS_GLOBAL ≠ 0) ∧
     (⟨true, 0x50, 0x9000, 0x02000000, some 0, 0x4000, 0x5000⟩ : BlockLiteral).is_stack_block = true) ∧
    (∃ e, blockLiteralInit true 0x50 0x9000 0x12000000 (some 0) 0x4000 0x5000 = .error e) :=
  ⟨(c9_literal_invariants true 0x50 0x9000 0x02000000 (some 0) 0x4000 0x5000).1
     ⟨true, 0x50, 0x9000, 0x02000000, some 0, 0x4000, 0x5000⟩ (by decide),
   (c9_literal_invariants true 0x50 0x9000 0x12000000 (some 0) 0x4000 0x5000).2
     (Or.inr (Or.inr (Or.inl ⟨rfl, by decide⟩)))⟩

end Blocks
